import Mathlib

/-!
Shallow embedding of `extract_chat_log.py` (chat-log extraction pipeline):
JSON values, Python truthiness, the record normalizer, the text cleaner,
the content renderer, timestamp formatting and the corpus sort, together
with theorems settling the specification claims.
-/

/-- JSON values as produced by `json.loads`; Python `None` and JSON `null`
both map to `.null` (CPython represents both by the same object). -/
inductive JValue where
  | null
  | bool (b : Bool)
  | num (n : Int)
  | str (s : String)
  | arr (xs : List JValue)
  | obj (fields : List (String × JValue))

/-- Association-list lookup for object fields (first match wins). -/
def lookupJ (k : String) : List (String × JValue) → Option JValue
  | [] => none
  | (k2, v) :: fs => if k2 == k then some v else lookupJ k fs

/-- Model of `d.get(k)`: `None` when the key is absent or the value is not an object. -/
def jget (v : JValue) (k : String) : JValue :=
  match v with
  | .obj fs => (lookupJ k fs).getD .null
  | _ => .null

/-- Model of `d.get(k, default)`. -/
def jgetD (v : JValue) (k : String) (dflt : JValue) : JValue :=
  match v with
  | .obj fs => (lookupJ k fs).getD dflt
  | _ => dflt

/-- Model of `k in d` (dict key membership). -/
def jhas (v : JValue) (k : String) : Bool :=
  match v with
  | .obj fs => (lookupJ k fs).isSome
  | _ => false

/-- Model of `isinstance(v, dict)`. -/
def isObjJ : JValue → Bool
  | .obj _ => true
  | _ => false

/-- Model of `v is None`. -/
def isNullJ : JValue → Bool
  | .null => true
  | _ => false

/-- Python truthiness of a JSON value. -/
def truthy : JValue → Bool
  | .null => false
  | .bool b => b
  | .num n => n != 0
  | .str s => s != ""
  | .arr xs => !xs.isEmpty
  | .obj fs => !fs.isEmpty

/-- Python `a or b` on JSON values. -/
def por (a b : JValue) : JValue := if truthy a then a else b

/-- Python `a and b` on JSON values. -/
def pand (a b : JValue) : JValue := if truthy a then b else a

mutual

/-- Structural size of a JSON value, used as recursion fuel below. -/
def sizeJ : JValue → Nat
  | .null => 1
  | .bool _ => 1
  | .num _ => 1
  | .str _ => 1
  | .arr xs => 1 + sizeJList xs
  | .obj fs => 1 + sizeJObj fs

/-- Structural size of a list of JSON values. -/
def sizeJList : List JValue → Nat
  | [] => 0
  | v :: vs => sizeJ v + sizeJList vs

/-- Structural size of a list of object fields. -/
def sizeJObj : List (String × JValue) → Nat
  | [] => 0
  | (_, v) :: fs => sizeJ v + sizeJObj fs

end

/-- Python `repr` of a JSON value (fuel-bounded over the nesting depth;
string escaping inside containers is not modelled). -/
def pyReprFuel : Nat → JValue → String
  | 0, _ => ""
  | fuel + 1, v =>
    match v with
    | .null => "None"
    | .bool true => "True"
    | .bool false => "False"
    | .num n => toString n
    | .str s => "'" ++ s ++ "'"
    | .arr xs =>
        "[" ++ String.intercalate ", " (xs.map (fun x => pyReprFuel fuel x)) ++ "]"
    | .obj fs =>
        "\x7b" ++
          String.intercalate ", "
            (fs.map (fun kv => "'" ++ kv.1 ++ "': " ++ pyReprFuel fuel kv.2)) ++
          "\x7d"

/-- Python `str` of a JSON value (`str(x)` is `x` itself for strings,
`repr`-style rendering otherwise). -/
def pyStr : JValue → String
  | .str s => s
  | v => pyReprFuel (sizeJ v) v

/-- Model of `s.lower()` (ASCII, as exercised by the log schemas). -/
def strLower (s : String) : String := ⟨s.data.map Char.toLower⟩

/-- Exact list-of-characters match at the front. -/
def leadsWith : List Char → List Char → Bool
  | [], _ => true
  | _ :: _, [] => false
  | p :: ps, c :: cs => p == c && leadsWith ps cs

/-- Python `pat in s` (contiguous substring occurrence). -/
def occursWithin (pat : List Char) : List Char → Bool
  | [] => leadsWith pat []
  | c :: cs => leadsWith pat (c :: cs) || occursWithin pat cs

/-- Model of `s[:n]` for strings. -/
def strTake (n : Nat) (s : String) : String := ⟨s.data.take n⟩

/-- The canonical message record built by `normalize_message`. -/
structure Message where
  timestamp : JValue
  role : String
  content : JValue
  file : String
  message_id : JValue
  cwd : JValue
  session_id : JValue

/-- Model of `payload = data.get("payload") if isinstance(data.get("payload"), dict) else None`. -/
def payloadOf (data : JValue) : JValue :=
  let p := jget data "payload"
  if isObjJ p then p else .null

/-- The resolved nested message object: `data["message"]` when it is a dict,
else `payload["message"]` when the payload wrapper nests a dict message. -/
def messageObjOf (data : JValue) : JValue :=
  let m0 := jget data "message"
  let mo := if isObjJ m0 then m0 else .null
  let p := payloadOf data
  if truthy p && !truthy mo && isObjJ (jget p "message") then jget p "message" else mo

/-- Timestamp precedence chain (Python `or`, so the first truthy value wins):
top-level `timestamp`, `payload.timestamp`, `created_at`, `time`, `ts`. -/
def resolveTimestamp (data : JValue) : JValue :=
  por (jget data "timestamp")
    (por (pand (.bool (isObjJ (jget data "payload"))) (jget (jget data "payload") "timestamp"))
      (por (jget data "created_at") (por (jget data "time") (jget data "ts"))))

/-- Top-level role resolution with synonym mapping: `role`/`type`/`source`,
then map case-insensitively (`assistant` substring or `model` to assistant,
`user` substring to user) when the lowered value is not already canonical. -/
def mapTopRole (data : JValue) : JValue :=
  let r := por (jget data "role") (por (jget data "type") (jget data "source"))
  match r with
  | .str s =>
    let rl := strLower s
    if rl == "user" || rl == "assistant" then .str s
    else if occursWithin "assistant".data rl.data || rl == "model" then .str "assistant"
    else if occursWithin "user".data rl.data then .str "user"
    else .str s
  | v => v

/-- Role precedence: nested message object's `role`, else `payload.role`,
else the mapped top-level `role`/`type`/`source`. -/
def resolveRole (data : JValue) : JValue :=
  let mo := messageObjOf data
  let p := payloadOf data
  let r1 := if truthy mo then jget mo "role" else .null
  let r2 := if !truthy r1 && truthy p then jget p "role" else r1
  if !truthy r2 then mapTopRole data else r2

/-- Streaming fallback: `delta.content`, `delta.text`, or a raw string `delta`. -/
def deltaContent (data : JValue) : JValue :=
  let d := jget data "delta"
  if isObjJ d && jhas d "content" then jget d "content"
  else if isObjJ d && jhas d "text" then jget d "text"
  else match d with
    | .str s => .str s
    | _ => .null

/-- Content precedence: message object's `content` (key presence, `is None`
fallthrough), else `payload.content`, else top-level `content`/`text`,
else the `delta` fallback. -/
def resolveContent (data : JValue) : JValue :=
  let mo := messageObjOf data
  let p := payloadOf data
  let c1 := if truthy mo && jhas mo "content" then jget mo "content" else .null
  let c2 := if isNullJ c1 && truthy p && jhas p "content" then jget p "content" else c1
  if isNullJ c2 then
    (if jhas data "content" then jget data "content"
     else if jhas data "text" then jget data "text"
     else deltaContent data)
  else c2

/-- Model of `data.get("cwd") or (payload and payload.get("cwd")) or data.get("working_directory")`. -/
def resolveCwd (data : JValue) : JValue :=
  let p := payloadOf data
  por (jget data "cwd") (por (pand p (jget p "cwd")) (jget data "working_directory"))

/-- Model of `data.get("sessionId") or (payload and payload.get("sessionId")) or data.get("session_id")`. -/
def resolveSessionId (data : JValue) : JValue :=
  let p := payloadOf data
  por (jget data "sessionId") (por (pand p (jget p "sessionId")) (jget data "session_id"))

/-- Model of `normalize_message(data, file_basename)`: canonical message or `None`. -/
def normalize_message (data : JValue) (file : String) : Option Message :=
  let role := resolveRole data
  if truthy role && (strLower (pyStr role) == "user" || strLower (pyStr role) == "assistant") then
    some
      { timestamp := resolveTimestamp data
        role := strLower (pyStr role)
        content := let c := resolveContent data; if isNullJ c then .str "" else c
        file := file
        message_id := por (por (jget data "uuid") (jget data "id")) (.str "")
        cwd := por (resolveCwd data) (.str "")
        session_id := por (resolveSessionId data) (.str "") }
  else none

/-- Whitespace class of the regex `\s` and of `str.strip()` (ASCII range). -/
def isPySpace (c : Char) : Bool :=
  c == ' ' || c == '\t' || c == '\n' || c == '\r' || c == '\x0b' || c == '\x0c'

/-- Line-break characters recognised by `str.splitlines`. -/
def isLineBreak (c : Char) : Bool :=
  c == '\n' || c == '\r' || c == '\x0b' || c == '\x0c' || c == '\x1c' ||
    c == '\x1d' || c == '\x1e' || c == '\x85' || c == '\u2028' || c == '\u2029'

/-- Case-insensitive match of a (lower-case) pattern at the front. -/
def leadsWithCI : List Char → List Char → Bool
  | [], _ => true
  | _ :: _, [] => false
  | p :: ps, c :: cs => p == c.toLower && leadsWithCI ps cs

/-- The opening literal of the environment-context pattern
(`<environment_context`, no closing bracket, as in the regex). -/
def envOpenTag : List Char := "<environment_context".data

/-- The closing literal `</environment_context>`. -/
def envCloseTag : List Char := "</environment_context>".data

/-- Scan for the first case-insensitive occurrence of the closing tag and
return the suffix after it. -/
def chopCloseCI : List Char → Option (List Char)
  | [] => none
  | c :: cs =>
    if leadsWithCI envCloseTag (c :: cs) then some (cs.drop (envCloseTag.length - 1))
    else chopCloseCI cs

/-- Model of `re.sub(r"<environment_context[\s\S]*?</environment_context>", "", text, flags=IGNORECASE)`:
remove every region from an opening literal through the nearest closing
literal, case-insensitively; an opening literal with no closing literal
anywhere after it is left in place (the regex then has no match). Fuel is
the input length, which always suffices. -/
def removeEnvFuel : Nat → List Char → List Char
  | 0, cs => cs
  | _ + 1, [] => []
  | fuel + 1, c :: cs =>
    if leadsWithCI envOpenTag (c :: cs) then
      match chopCloseCI (cs.drop (envOpenTag.length - 1)) with
      | some rest => removeEnvFuel fuel rest
      | none => c :: removeEnvFuel fuel cs
    else c :: removeEnvFuel fuel cs

/-- Model of `str.splitlines()` on a character list. -/
def splitlinesAux (cur : List Char) : List Char → List (List Char)
  | [] => if cur.isEmpty then [] else [cur.reverse]
  | '\r' :: '\n' :: cs => cur.reverse :: splitlinesAux [] cs
  | c :: cs =>
    if isLineBreak c then cur.reverse :: splitlinesAux [] cs
    else splitlinesAux (c :: cur) cs

/-- Model of `text.splitlines()`. -/
def splitlinesL (cs : List Char) : List (List Char) := splitlinesAux [] cs

/-- Model of `"\n".join(lines)` on character lists. -/
def joinNl : List (List Char) → List Char
  | [] => []
  | [l] => l
  | l :: ls => l ++ '\n' :: joinNl ls

/-- Model of `re.sub(r"\n{3,}", "\n\n", s)`: collapse every maximal run of three or
more newlines to exactly two. The first argument counts pending newlines. -/
def collapseNlAux (pending : Nat) : List Char → List Char
  | [] => if pending ≥ 3 then ['\n', '\n'] else List.replicate pending '\n'
  | c :: cs =>
    if c == '\n' then collapseNlAux (pending + 1) cs
    else
      (if pending ≥ 3 then ['\n', '\n'] else List.replicate pending '\n') ++
        c :: collapseNlAux 0 cs

/-- Collapse runs of three or more newlines to two. -/
def collapseNl (cs : List Char) : List Char := collapseNlAux 0 cs

/-- Model of `str.strip()`. -/
def pyStrip (cs : List Char) : List Char :=
  ((cs.dropWhile isPySpace).reverse.dropWhile isPySpace).reverse

/-- Model of `re.match(r"^\s*#\s*Context from my IDE setup:", line, IGNORECASE)`. -/
def matchContextHeading (l : List Char) : Bool :=
  match l.dropWhile isPySpace with
  | '#' :: r => leadsWithCI "context from my ide setup:".data (r.dropWhile isPySpace)
  | _ => false

/-- Model of `re.match(r"^\s*##\s*Active file:\s*", line, IGNORECASE)`. -/
def matchActiveHeading (l : List Char) : Bool :=
  match l.dropWhile isPySpace with
  | '#' :: '#' :: r => leadsWithCI "active file:".data (r.dropWhile isPySpace)
  | _ => false

/-- Model of `re.match(r"^\s*##\s*Open tabs:\s*", line, IGNORECASE)`. -/
def matchOpenTabsHeading (l : List Char) : Bool :=
  match l.dropWhile isPySpace with
  | '#' :: '#' :: r => leadsWithCI "open tabs:".data (r.dropWhile isPySpace)
  | _ => false

/-- Model of `re.match(r"^\s*-\s*Active file:\s*", line, IGNORECASE)`. -/
def matchDashActive (l : List Char) : Bool :=
  match l.dropWhile isPySpace with
  | '-' :: r => leadsWithCI "active file:".data (r.dropWhile isPySpace)
  | _ => false

/-- Model of `re.match(r"^\s*-\s*Open tabs:\s*", line, IGNORECASE)`. -/
def matchDashOpenTabs (l : List Char) : Bool :=
  match l.dropWhile isPySpace with
  | '-' :: r => leadsWithCI "open tabs:".data (r.dropWhile isPySpace)
  | _ => false

/-- Model of `re.match(r"^\s*-\s+", line)`: a bullet marker followed by whitespace. -/
def matchBullet (l : List Char) : Bool :=
  match l.dropWhile isPySpace with
  | '-' :: c :: _ => isPySpace c
  | _ => false

/-- The line filter of `clean_user_text`, threading the `skip_bullets` flag. -/
def cleanLines (skip : Bool) : List (List Char) → List (List Char)
  | [] => []
  | line :: rest =>
    if matchContextHeading line then cleanLines skip rest
    else if matchActiveHeading line then cleanLines false rest
    else if matchOpenTabsHeading line then cleanLines true rest
    else if matchDashActive line then cleanLines skip rest
    else if matchDashOpenTabs line then cleanLines true rest
    else if skip then
      if matchBullet line then cleanLines true rest
      else line :: cleanLines false rest
    else line :: cleanLines false rest

/-- Model of `clean_user_text(text)`: environment-context removal, the IDE-context
line filter, newline-run collapsing and a final strip. -/
def clean_user_text (text : String) : String :=
  if text == "" then text
  else
    let t1 := removeEnvFuel text.data.length text.data
    let out := cleanLines false (splitlinesL t1)
    ⟨pyStrip (collapseNl (joinNl out))⟩

/-- JSON string escaping as in `json.dumps` (core escapes). -/
def jsonEscapeChar (c : Char) : List Char :=
  if c == '"' then ['\\', '"']
  else if c == '\\' then ['\\', '\\']
  else if c == '\n' then ['\\', 'n']
  else if c == '\t' then ['\\', 't']
  else if c == '\r' then ['\\', 'r']
  else [c]

/-- Escape a whole string for JSON output. -/
def jsonEscape : List Char → List Char
  | [] => []
  | c :: cs => jsonEscapeChar c ++ jsonEscape cs

/-- Model of `n` spaces of indentation. -/
def spacesN (n : Nat) : String := ⟨List.replicate n ' '⟩

/-- Model of `json.dumps(v, indent=2)` at a given indentation level (fuel-bounded). -/
def dumpsFuel : Nat → Nat → JValue → String
  | 0, _, _ => ""
  | fuel + 1, lvl, v =>
    match v with
    | .null => "null"
    | .bool true => "true"
    | .bool false => "false"
    | .num n => toString n
    | .str s => "\"" ++ ⟨jsonEscape s.data⟩ ++ "\""
    | .arr [] => "[]"
    | .arr xs =>
        "[\n" ++
          String.intercalate ",\n"
            (xs.map (fun x => spacesN (2 * (lvl + 1)) ++ dumpsFuel fuel (lvl + 1) x)) ++
          "\n" ++ spacesN (2 * lvl) ++ "]"
    | .obj [] => "\x7b\x7d"
    | .obj fs =>
        "\x7b\n" ++
          String.intercalate ",\n"
            (fs.map (fun kv =>
              spacesN (2 * (lvl + 1)) ++ "\"" ++ (⟨jsonEscape kv.1.data⟩ : String) ++
                "\": " ++ dumpsFuel fuel (lvl + 1) kv.2)) ++
          "\n" ++ spacesN (2 * lvl) ++ "\x7d"

/-- Model of `json.dumps(v, indent=2)`. -/
def jsonDumps (v : JValue) : String := dumpsFuel (sizeJ v) 0 v

/-- Model of `t == s` for a JSON value against a string literal (Python `==`). -/
def typeIs (t : JValue) (s : String) : Bool :=
  match t with
  | .str x => x == s
  | _ => false

/-- A `text`/`input_text`/`output_text` block: extract `text` (default `""`),
clean it for user turns, and append it with a blank separator if non-empty. -/
def renderTextBlock (role : String) (item : JValue) : List String :=
  let tv := jgetD item "text" (.str "")
  if role == "user" then
    let s := clean_user_text (pyStr tv)
    if s == "" then [] else [s, ""]
  else
    if truthy tv then [pyStr tv, ""] else []

/-- A `tool_use` block: labelled line plus pretty-printed JSON input. -/
def renderToolUse (item : JValue) : List String :=
  let name := jgetD item "name" (.str "unknown")
  let input := jgetD item "input" (.obj [])
  ["**Tool Use:** `" ++ pyStr name ++ "`", "```json", jsonDumps input, "```", ""]

/-- A `tool_result` block: labelled reference line, then the string payload
truncated to 1000 characters with an ellipsis marker when truncated, or the
pretty-printed JSON payload truncated to 1000 characters. -/
def renderToolResult (item : JValue) : List String :=
  let tid := jgetD item "tool_use_id" (.str "unknown")
  let tc := jgetD item "content" (.str "")
  ("**Tool Result:** " ++ pyStr tid) ::
    ((match tc with
      | .str s => ["```", strTake 1000 s ++ (if 1000 < s.length then "..." else ""), "```"]
      | v => ["```json", strTake 1000 (jsonDumps v), "```"]) ++ [""])

/-- One element of a structured content list. The final arm reproduces the
source's dead conditional (`elif isinstance(content, dict)` nested inside the
list branch, where `content` is always a list). -/
def renderItem (content : JValue) (role : String) (item : JValue) : List String :=
  match item with
  | .obj _ =>
    let t := jget item "type"
    if typeIs t "text" || typeIs t "input_text" || typeIs t "output_text" then
      renderTextBlock role item
    else if typeIs t "tool_use" then renderToolUse item
    else if typeIs t "tool_result" then renderToolResult item
    else []
  | .str s => [s, ""]
  | _ =>
    match content with
    | .obj _ => ["```json", strTake 2000 (jsonDumps content), "```", ""]
    | _ => []

/-- Concatenate rendered fragments in order. -/
def concatLists : List (List String) → List String
  | [] => []
  | l :: ls => l ++ concatLists ls

/-- Model of `render_content_blocks(output, content, role)`: the lines appended to
the output buffer. -/
def render_content_blocks (content : JValue) (role : String) : List String :=
  match content with
  | .arr items => concatLists (items.map (renderItem content role))
  | .str s0 =>
    let s := if role == "user" then clean_user_text s0 else s0
    if s == "" then [] else [s, ""]
  | _ => []

/-- The wall-clock fields `datetime.fromisoformat` yields (offset and
fractional seconds are parsed for validity but dropped, as `strftime`
with `%Y-%m-%d %H:%M:%S` ignores them). -/
structure PyDateTime where
  year : Nat
  month : Nat
  day : Nat
  hour : Nat
  minute : Nat
  second : Nat
deriving DecidableEq

/-- Read exactly `n` digits, returning their value and the rest. -/
def readNDigits (n : Nat) (l : List Char) : Option (Nat × List Char) :=
  let ds := l.take n
  if ds.length == n && ds.all Char.isDigit then
    some (ds.foldl (fun a c => a * 10 + (c.toNat - 48)) 0, l.drop n)
  else none

/-- Gregorian leap year. -/
def isLeap (y : Nat) : Bool := y % 4 == 0 && (y % 100 != 0 || y % 400 == 0)

/-- Days in a month. -/
def daysInMonth (y m : Nat) : Nat :=
  if m == 2 then (if isLeap y then 29 else 28)
  else if m == 4 || m == 6 || m == 9 || m == 11 then 30
  else 31

/-- Calendar validity as enforced by `datetime`. -/
def validDate (y mo d : Nat) : Bool :=
  1 ≤ y && y ≤ 9999 && 1 ≤ mo && mo ≤ 12 && 1 ≤ d && d ≤ daysInMonth y mo

/-- Time-of-day validity. -/
def validTime (hh mm ss : Nat) : Bool := hh ≤ 23 && mm ≤ 59 && ss ≤ 59

/-- Optional fractional seconds: a `.` or `,` must be followed by at least
one digit; the digits are consumed and discarded. -/
def chompFrac : List Char → Option (List Char)
  | [] => some []
  | c :: r =>
    if c == '.' || c == ',' then
      let ds := r.takeWhile Char.isDigit
      if ds.isEmpty then none else some (r.drop ds.length)
    else some (c :: r)

/-- A UTC-offset suffix: empty, `Z`/`z`, or `±HH[:MM[:SS]]`. -/
def validOffset : List Char → Bool
  | [] => true
  | ['Z'] => true
  | ['z'] => true
  | c :: r =>
    if c == '+' || c == '-' then
      match readNDigits 2 r with
      | none => false
      | some (oh, r2) =>
        if 24 ≤ oh then false
        else
          match r2 with
          | [] => true
          | ':' :: r3 =>
            match readNDigits 2 r3 with
            | none => false
            | some (om, r4) =>
              if 60 ≤ om then false
              else
                match r4 with
                | [] => true
                | ':' :: r5 =>
                  match readNDigits 2 r5 with
                  | none => false
                  | some (os, r6) => os < 60 && r6.isEmpty
                | _ => false
          | _ => false
    else false

/-- The time-of-day part `HH[:MM[:SS[.ffffff]]][offset]`. -/
def parseTimeOfDay (l : List Char) : Option (Nat × Nat × Nat) :=
  match readNDigits 2 l with
  | none => none
  | some (hh, r1) =>
    match r1 with
    | ':' :: r2 =>
      match readNDigits 2 r2 with
      | none => none
      | some (mm, r3) =>
        match r3 with
        | ':' :: r4 =>
          match readNDigits 2 r4 with
          | none => none
          | some (ss, r5) =>
            match chompFrac r5 with
            | none => none
            | some r6 => if validOffset r6 then some (hh, mm, ss) else none
        | _ => if validOffset r3 then some (hh, mm, 0) else none
    | _ => if validOffset r1 then some (hh, 0, 0) else none

/-- Model of `datetime.fromisoformat` for the extended ISO-8601 forms the
logs use: `YYYY-MM-DD[<sep>HH[:MM[:SS[.ffffff]]][offset]]`, validating the
calendar date, the time of day and the offset shape. -/
def parseIso (s : String) : Option PyDateTime :=
  match readNDigits 4 s.data with
  | none => none
  | some (y, r1) =>
    match r1 with
    | '-' :: r2 =>
      match readNDigits 2 r2 with
      | none => none
      | some (mo, r3) =>
        match r3 with
        | '-' :: r4 =>
          match readNDigits 2 r4 with
          | none => none
          | some (d, r5) =>
            if !validDate y mo d then none
            else
              match r5 with
              | [] => some ⟨y, mo, d, 0, 0, 0⟩
              | _sep :: r6 =>
                match parseTimeOfDay r6 with
                | none => none
                | some (hh, mm, ss) =>
                  if validTime hh mm ss then some ⟨y, mo, d, hh, mm, ss⟩ else none
        | _ => none
    | _ => none

/-- Zero-padded two-digit field. -/
def pad2 (n : Nat) : String := if n < 10 then "0" ++ toString n else toString n

/-- Zero-padded four-digit year. -/
def pad4 (n : Nat) : String :=
  if n < 10 then "000" ++ toString n
  else if n < 100 then "00" ++ toString n
  else if n < 1000 then "0" ++ toString n
  else toString n

/-- Model of `dt.strftime("%Y-%m-%d %H:%M:%S")`. -/
def fmtDateTime (dt : PyDateTime) : String :=
  pad4 dt.year ++ "-" ++ pad2 dt.month ++ "-" ++ pad2 dt.day ++ " " ++
    pad2 dt.hour ++ ":" ++ pad2 dt.minute ++ ":" ++ pad2 dt.second

/-- Model of `ts.replace("Z", "+00:00")` on a character list. -/
def replaceZL : List Char → List Char
  | [] => []
  | c :: cs => (if c == 'Z' then "+00:00".data else [c]) ++ replaceZL cs

/-- Model of `ts.replace("Z", "+00:00")`. -/
def replaceZ (s : String) : String := ⟨replaceZL s.data⟩

/-- Model of `format_time(ts)`: `"Unknown time"` for falsy input, the formatted
timestamp on parse success, the raw string on parse failure. -/
def format_time : Option String → String
  | none => "Unknown time"
  | some s =>
    if s == "" then "Unknown time"
    else
      match parseIso (replaceZ s) with
      | some dt => fmtDateTime dt
      | none => s

/-- Lexicographic (code-point) order on character lists, Python `<=`
on strings. -/
def lexLe : List Char → List Char → Bool
  | [], _ => true
  | _ :: _, [] => false
  | a :: as, b :: bs =>
    if a.toNat < b.toNat then true
    else if b.toNat < a.toNat then false
    else lexLe as bs

/-- The sort key of `main`: `x["timestamp"] if x["timestamp"] else ""`,
read as a string (non-string timestamps are not ordered by Python either;
they are keyed as the empty string here). -/
def msgKey (m : Message) : String :=
  match por m.timestamp (.str "") with
  | .str s => s
  | _ => ""

/-- Key comparison between two messages. -/
def msgLe (a b : Message) : Bool := lexLe (msgKey a).data (msgKey b).data

/-- Stable insertion of a message into an already sorted list: the new
element goes before the first element it compares `≤` to, hence after
nothing equal that was already present earlier in the input. -/
def insertMsg (x : Message) : List Message → List Message
  | [] => [x]
  | y :: ys => if msgLe x y then x :: y :: ys else y :: insertMsg x ys

/-- Model of `all_messages.sort(key=...)`: a stable ascending sort by `msgKey`. -/
def sortMessages : List Message → List Message
  | [] => []
  | x :: xs => insertMsg x (sortMessages xs)


/-! ## Helper lemmas -/

theorem lexLe_refl (l : List Char) : lexLe l l = true := by
  induction l with
  | nil => rfl
  | cons c cs ih => simp [lexLe, ih]

theorem lexLe_total (a b : List Char) : lexLe a b = true ∨ lexLe b a = true := by
  induction a generalizing b with
  | nil => exact Or.inl rfl
  | cons c cs ih =>
    cases b with
    | nil => exact Or.inr rfl
    | cons d ds =>
      by_cases h1 : c.toNat < d.toNat
      · exact Or.inl (by simp [lexLe, h1])
      · by_cases h2 : d.toNat < c.toNat
        · exact Or.inr (by simp [lexLe, h2])
        · rcases ih ds with h | h
          · exact Or.inl (by simp [lexLe, h1, h2, h])
          · exact Or.inr (by simp [lexLe, h1, h2, h])

theorem lexLe_trans (a b c : List Char) (hab : lexLe a b = true) (hbc : lexLe b c = true) :
    lexLe a c = true := by
  induction a generalizing b c with
  | nil => rfl
  | cons x xs ih =>
    cases b with
    | nil => simp [lexLe] at hab
    | cons y ys =>
      cases c with
      | nil => simp [lexLe] at hbc
      | cons z zs =>
        simp only [lexLe] at hab hbc ⊢
        rcases Nat.lt_trichotomy x.toNat y.toNat with hxy | hxy | hxy
        · rcases Nat.lt_trichotomy y.toNat z.toNat with hyz | hyz | hyz
          · simp [show x.toNat < z.toNat by omega]
          · simp [show x.toNat < z.toNat by omega]
          · simp [show ¬ y.toNat < z.toNat by omega, hyz] at hbc
        · simp only [show ¬ x.toNat < y.toNat by omega,
            show ¬ y.toNat < x.toNat by omega, if_neg, if_false, ite_false] at hab
          rcases Nat.lt_trichotomy y.toNat z.toNat with hyz | hyz | hyz
          · simp [show x.toNat < z.toNat by omega]
          · simp only [show ¬ y.toNat < z.toNat by omega,
              show ¬ z.toNat < y.toNat by omega, if_neg, if_false, ite_false] at hbc
            simp only [show ¬ x.toNat < z.toNat by omega,
              show ¬ z.toNat < x.toNat by omega, if_neg, if_false, ite_false]
            exact ih ys zs hab hbc
          · simp [show ¬ y.toNat < z.toNat by omega, hyz] at hbc
        · simp [show ¬ x.toNat < y.toNat by omega, hxy] at hab

theorem msgLe_refl (a : Message) : msgLe a a = true := lexLe_refl _

theorem msgLe_total (a b : Message) : msgLe a b = true ∨ msgLe b a = true := lexLe_total _ _

theorem msgLe_trans {a b c : Message} (hab : msgLe a b = true) (hbc : msgLe b c = true) :
    msgLe a c = true := lexLe_trans _ _ _ hab hbc

theorem mem_insertMsg {z x : Message} :
    ∀ {s : List Message}, z ∈ insertMsg x s → z = x ∨ z ∈ s := by
  intro s
  induction s with
  | nil =>
    intro h
    simp [insertMsg] at h
    exact Or.inl h
  | cons y ys ih =>
    intro h
    by_cases hle : msgLe x y = true
    · simp only [insertMsg, if_pos hle] at h
      rcases List.mem_cons.mp h with h | h
      · exact Or.inl h
      · exact Or.inr h
    · simp only [insertMsg, if_neg hle] at h
      rcases List.mem_cons.mp h with h | h
      · exact Or.inr (by simp [h])
      · rcases ih h with h | h
        · exact Or.inl h
        · exact Or.inr (List.mem_cons_of_mem _ h)

theorem pairwise_insertMsg (x : Message) :
    ∀ s : List Message, s.Pairwise (fun a b => msgLe a b = true) →
      (insertMsg x s).Pairwise (fun a b => msgLe a b = true) := by
  intro s
  induction s with
  | nil => intro _; simp [insertMsg]
  | cons y ys ih =>
    intro hp
    rcases List.pairwise_cons.mp hp with ⟨hy, hys⟩
    by_cases hle : msgLe x y = true
    · simp only [insertMsg, if_pos hle]
      refine List.pairwise_cons.mpr ⟨?_, hp⟩
      intro z hz
      rcases List.mem_cons.mp hz with rfl | hz
      · exact hle
      · exact msgLe_trans hle (hy z hz)
    · simp only [insertMsg, if_neg hle]
      refine List.pairwise_cons.mpr ⟨?_, ih hys⟩
      intro z hz
      rcases mem_insertMsg hz with hzx | hz
      · rw [hzx]
        rcases msgLe_total x y with h | h
        · exact absurd h hle
        · exact h
      · exact hy z hz

theorem sorted_sortMessages (l : List Message) :
    (sortMessages l).Pairwise (fun a b => msgLe a b = true) := by
  induction l with
  | nil => simp [sortMessages]
  | cons x xs ih => exact pairwise_insertMsg x (sortMessages xs) ih

theorem filter_insertMsg (x : Message) (k : String) :
    ∀ s : List Message,
      (insertMsg x s).filter (fun m => msgKey m == k)
        = if msgKey x == k then x :: s.filter (fun m => msgKey m == k)
          else s.filter (fun m => msgKey m == k) := by
  intro s
  induction s with
  | nil =>
    by_cases hx : (msgKey x == k) = true <;> simp [insertMsg, List.filter, hx]
  | cons y ys ih =>
    by_cases hle : msgLe x y = true
    · simp only [insertMsg, if_pos hle]
      by_cases hx : (msgKey x == k) = true <;> simp [List.filter_cons, hx]
    · simp only [insertMsg, if_neg hle]
      by_cases hy : (msgKey y == k) = true
      · by_cases hx : (msgKey x == k) = true
        · exfalso
          apply hle
          have h1 : msgKey x = k := by simpa using hx
          have h2 : msgKey y = k := by simpa using hy
          simp [msgLe, h1, h2, lexLe_refl]
        · simp [List.filter_cons, hy, hx, ih]
      · simp [List.filter_cons, hy, ih]

theorem filter_sortMessages (k : String) (l : List Message) :
    (sortMessages l).filter (fun m => msgKey m == k) = l.filter (fun m => msgKey m == k) := by
  induction l with
  | nil => rfl
  | cons x xs ih =>
    rw [sortMessages, filter_insertMsg, ih, List.filter_cons]

theorem perm_insertMsg (x : Message) : ∀ s : List Message, (insertMsg x s).Perm (x :: s) := by
  intro s
  induction s with
  | nil => simp [insertMsg]
  | cons y ys ih =>
    by_cases hle : msgLe x y = true
    · simp [insertMsg, hle]
    · simp only [insertMsg, if_neg hle]
      exact (ih.cons y).trans (List.Perm.swap x y ys)

theorem perm_sortMessages (l : List Message) : (sortMessages l).Perm l := by
  induction l with
  | nil => rfl
  | cons x xs ih => exact (perm_insertMsg x (sortMessages xs)).trans (ih.cons x)

/-- First stability example message: empty timestamp, input position 1. -/
def exMsgA : Message := ⟨.str "", "user", .str "", "a.jsonl", .str "1", .str "", .str ""⟩

/-- Second stability example message: the dated one, input position 2. -/
def exMsgB : Message := ⟨.str "2024-01-01T00:00:00Z", "user", .str "", "a.jsonl", .str "2", .str "", .str ""⟩

/-- Third stability example message: empty timestamp, input position 3. -/
def exMsgC : Message := ⟨.str "", "user", .str "", "a.jsonl", .str "3", .str "", .str ""⟩

/-! ## Claim theorems -/

/-- Claim C1 (code bug): for content that is a dict directly, the renderer
emits no lines at all. The pretty-printing branch in the source is nested
as `elif isinstance(content, dict)` inside the `isinstance(content, list)`
loop, where `content` is always a list, so it is dead code and dict content
falls through both top-level branches, contradicting the function's own
docstring ("content which can be a list (structured), dict, or string")
and its "Best-effort pretty print" comment. -/
theorem c1_dict_content_renders_nothing (fs : List (String × JValue)) (role : String) :
    render_content_blocks (.obj fs) role = [] := rfl

/-- Claim C2 counterexample: on the spec's own example the Text Cleaner
returns `"before\n\nafter"`, not the claimed `"before\nafter"` — removing
the region leaves the two surrounding newlines, and only runs of three or
more newlines are collapsed. -/
theorem c2_counterexample :
    clean_user_text "before\n<environment_context>\nfoo\nbar\n</environment_context>\nafter"
        = "before\n\nafter"
      ∧ ("before\n\nafter" : String) ≠ "before\nafter" :=
  ⟨rfl, by decide⟩

/-- Claim C2 amended: the example input yields `"before\n\nafter"` (a blank
line remains where the block stood, since only runs of three or more
newlines collapse); removal of complete
`<environment_context>...</environment_context>` regions is
case-insensitive, spans internal newlines, and removes every region. -/
theorem c2_amended :
    clean_user_text "before\n<environment_context>\nfoo\nbar\n</environment_context>\nafter"
        = "before\n\nafter"
      ∧ clean_user_text "before\n<ENVIRONMENT_CONTEXT>\nx\ny\nz\n</Environment_Context>\nafter"
          = "before\n\nafter"
      ∧ clean_user_text
            "a<environment_context>1</environment_context>b<environment_context>2</environment_context>c"
          = "abc" :=
  ⟨rfl, rfl, rfl⟩

/-- Claim C8: the Open-tabs heading enters bullet-skip mode and is dropped,
the two bullet lines are dropped while the mode persists, and the first
non-bullet line exits the mode and is kept. -/
theorem c8_bullet_skip :
    clean_user_text "## Open tabs:\n- a.py\n- b.py\nnext line" = "next line" := rfl

/-- Claim C9: the corpus sort orders messages ascending by the timestamp
key (empty string for absent timestamps, so timestamp-less messages sort
first), is stable (elements with any fixed key keep their input order),
permutes the input, and on the spec's example with timestamps
`["", "2024-01-01T00:00:00Z", ""]` keeps the two empty-timestamp messages
in their relative input order. -/
theorem c9_sort_stable_ascending :
    (∀ l : List Message, (sortMessages l).Pairwise (fun a b => msgLe a b = true))
      ∧ (∀ (k : String) (l : List Message),
          (sortMessages l).filter (fun m => msgKey m == k)
            = l.filter (fun m => msgKey m == k))
      ∧ (∀ l : List Message, (sortMessages l).Perm l)
      ∧ sortMessages [exMsgA, exMsgB, exMsgC] = [exMsgA, exMsgC, exMsgB] :=
  ⟨sorted_sortMessages, filter_sortMessages, perm_sortMessages, rfl⟩

/-- The `tool_result` content-block shape claim C7 quantifies over. -/
def toolResultItem (tid : JValue) (s : String) : JValue :=
  .obj [("type", .str "tool_result"), ("tool_use_id", tid), ("content", .str s)]

/-- Claim C7: a string tool-result payload longer than 1000 characters is
rendered as its first 1000 characters followed by the `...` marker; one of
at most 1000 characters is rendered unchanged with no marker. -/
theorem c7_tool_result_truncation (s : String) (tid : JValue) (role : String) :
    (1000 < s.length →
      render_content_blocks (.arr [toolResultItem tid s]) role
        = ["**Tool Result:** " ++ pyStr tid, "```", strTake 1000 s ++ "...", "```", ""])
      ∧ (s.length ≤ 1000 →
          render_content_blocks (.arr [toolResultItem tid s]) role
            = ["**Tool Result:** " ++ pyStr tid, "```", s, "```", ""]) := by
  constructor
  · intro h
    simp [render_content_blocks, concatLists, renderItem, toolResultItem, renderToolResult,
      typeIs, jget, jgetD, lookupJ, h]
  · intro h
    have h2 : ¬ 1000 < s.length := Nat.not_lt.mpr h
    have h3 : strTake 1000 s = s := by
      show String.mk (s.data.take 1000) = s
      rw [List.take_of_length_le h]
    simp [render_content_blocks, concatLists, renderItem, toolResultItem, renderToolResult,
      typeIs, jget, jgetD, lookupJ, h2, h3]

/-- Witness for C7, at payload lengths 1500 and 900. -/
theorem c7_tool_result_truncation_witness :
    render_content_blocks
          (.arr [toolResultItem (.str "id1") (String.mk (List.replicate 1500 'a'))]) "assistant"
        = ["**Tool Result:** id1", "```",
            strTake 1000 (String.mk (List.replicate 1500 'a')) ++ "...", "```", ""]
      ∧ render_content_blocks
            (.arr [toolResultItem (.str "id2") (String.mk (List.replicate 900 'b'))]) "assistant"
          = ["**Tool Result:** id2", "```", String.mk (List.replicate 900 'b'), "```", ""] :=
  ⟨(c7_tool_result_truncation (String.mk (List.replicate 1500 'a')) (.str "id1") "assistant").1
      (by show (1000 : Nat) < (List.replicate 1500 'a').length
          rw [List.length_replicate]
          decide),
   (c7_tool_result_truncation (String.mk (List.replicate 900 'b')) (.str "id2") "assistant").2
      (by show (List.replicate 900 'b').length ≤ 1000
          rw [List.length_replicate]
          decide)⟩

/-- The record of claim C3's counterexample: both a top-level `timestamp`
(the empty string) and a different `payload.timestamp`. -/
def c3Data : JValue :=
  .obj [("timestamp", .str ""),
        ("payload", .obj [("timestamp", .str "2024-01-01T00:00:00Z")]),
        ("role", .str "user")]

/-- Claim C3 counterexample: with top-level `timestamp` set to `""` and
`payload.timestamp` set to `"2024-01-01T00:00:00Z"` — both present, and
different — the normalized timestamp is the payload value, not the
top-level one: Python `or` skips falsy (not just null) values. -/
theorem c3_counterexample :
    (normalize_message c3Data "f.jsonl").map Message.timestamp
        = some (.str "2024-01-01T00:00:00Z")
      ∧ jget c3Data "timestamp" = .str ""
      ∧ JValue.str "2024-01-01T00:00:00Z" ≠ JValue.str "" :=
  ⟨rfl, rfl, by intro h; injection h with h1; exact absurd h1 (by decide)⟩

/-- Claim C3 amended: the chain takes the first *truthy* value, so the
top-level `timestamp` wins exactly when it is truthy (for strings:
non-empty); a falsy top-level value (empty string, `0`, `null`) falls
through to `payload.timestamp`, then `created_at`, `time`, `ts`. -/
theorem c3_amended (data : JValue) (file : String) (m : Message)
    (ht : truthy (jget data "timestamp") = true)
    (hm : normalize_message data file = some m) :
    m.timestamp = jget data "timestamp" := by
  have hts : resolveTimestamp data = jget data "timestamp" := by
    unfold resolveTimestamp por
    rw [if_pos ht]
  simp only [normalize_message] at hm
  by_cases hg : (truthy (resolveRole data) &&
      (strLower (pyStr (resolveRole data)) == "user" ||
        strLower (pyStr (resolveRole data)) == "assistant")) = true
  · rw [if_pos hg] at hm
    cases hm
    exact hts
  · rw [if_neg hg] at hm
    cases hm

/-- The record for the C3 witness: a truthy top-level timestamp. -/
def c3WData : JValue := .obj [("timestamp", .str "2024-05-05"), ("role", .str "user")]

/-- The canonical message the C3 witness record normalizes to. -/
def c3WMsg : Message :=
  ⟨.str "2024-05-05", "user", .str "", "f.jsonl", .str "", .str "", .str ""⟩

/-- Witness for C3 amended: at the concrete record, the normalized
timestamp equals the top-level field. -/
theorem c3_amended_witness : c3WMsg.timestamp = jget c3WData "timestamp" :=
  c3_amended c3WData "f.jsonl" c3WMsg (by decide) (by rfl)

/-- If the guard fails — the resolved role does not lower to `user` or
`assistant` — the normalizer returns `none`. -/
theorem normalize_drop (data : JValue) (file : String)
    (h : strLower (pyStr (resolveRole data)) ≠ "user")
    (h2 : strLower (pyStr (resolveRole data)) ≠ "assistant") :
    normalize_message data file = none := by
  have hg : (truthy (resolveRole data) &&
      (strLower (pyStr (resolveRole data)) == "user" ||
        strLower (pyStr (resolveRole data)) == "assistant")) = false := by
    simp [h, h2]
  simp [normalize_message, hg]

/-- If the resolved role is a non-empty string lowering to `user` or
`assistant`, the normalizer produces a message with that lowered role. -/
theorem normalize_role_eq (data : JValue) (file : String) (t : String)
    (hrr : resolveRole data = .str t) (hne : t ≠ "")
    (ht : strLower t = "user" ∨ strLower t = "assistant") :
    (normalize_message data file).map Message.role = some (strLower t) := by
  have htr : truthy (JValue.str t) = true := by simp [truthy, hne]
  have hg : (truthy (resolveRole data) &&
      (strLower (pyStr (resolveRole data)) == "user" ||
        strLower (pyStr (resolveRole data)) == "assistant")) = true := by
    rw [hrr]
    rcases ht with h | h <;> simp [pyStr, htr, h]
  simp only [normalize_message]
  rw [if_pos hg]
  simp [pyStr, hrr]

/-- Claim C4 counterexample: a role resolved from the nested `message` tier
is not synonym-mapped — `assistant_response` there drops the record. -/
theorem c4_counterexample :
    normalize_message
        (.obj [("message", .obj [("role", .str "assistant_response"), ("content", .str "hi")])])
        "f.jsonl" = none := rfl

/-- The single-field record with a top-level role, used by claim C4. -/
def topRoleData (r : String) : JValue := .obj [("role", .str r)]

/-- The nested-message record used by claim C4's third part. -/
def msgRoleData (s : String) : JValue :=
  .obj [("message", .obj [("role", .str s), ("content", .str "hi")])]

theorem resolveRole_topRoleData (r : String) :
    resolveRole (topRoleData r) = mapTopRole (topRoleData r) := rfl

theorem mapTopRole_eval (r : String) (hne : r ≠ "") :
    mapTopRole (topRoleData r) =
      (if strLower r == "user" || strLower r == "assistant" then .str r
       else if occursWithin "assistant".data (strLower r).data || strLower r == "model" then
         .str "assistant"
       else if occursWithin "user".data (strLower r).data then .str "user"
       else .str r) := by
  have h1 : (r != "") = true := by simp [hne]
  simp [mapTopRole, topRoleData, jget, lookupJ, por, truthy, h1]

theorem resolveRole_msgRoleData (s : String) (hs : s ≠ "") :
    resolveRole (msgRoleData s) = .str s := by
  have hbs : (s != "") = true := by simp [hs]
  simp [resolveRole, msgRoleData, messageObjOf, payloadOf, jget, lookupJ, isObjJ, truthy, hbs]

/-- Claim C4 amended: synonym mapping applies only when the role is resolved
at the top-level `role`/`type`/`source` tier. There it is case-insensitive:
a value whose lower-casing contains `assistant` or equals `model` yields
canonical role `assistant`; one containing `user` (and not mapping to
assistant) yields `user`, and such records are normalized rather than
dropped. A role resolved from the nested message (or payload) tier must
already lower to exactly `user`/`assistant`, otherwise the record is
dropped. -/
theorem c4_amended (r s : String) (file : String) :
    (occursWithin "assistant".data (strLower r).data = true ∨ strLower r = "model" →
        (normalize_message (topRoleData r) file).map Message.role = some "assistant")
      ∧ (occursWithin "user".data (strLower r).data = true →
          occursWithin "assistant".data (strLower r).data = false →
          strLower r ≠ "model" →
          (normalize_message (topRoleData r) file).map Message.role = some "user")
      ∧ (strLower s ≠ "user" → strLower s ≠ "assistant" →
          normalize_message (msgRoleData s) file = none) := by
  refine ⟨?_, ?_, ?_⟩
  · intro h
    by_cases hne : r = ""
    · subst hne
      rcases h with h | h
      · exact absurd h (by decide)
      · exact absurd h (by decide)
    · by_cases hu : strLower r = "user"
      · exfalso
        rcases h with h | h
        · rw [hu] at h; exact absurd h (by decide)
        · rw [hu] at h; exact absurd h (by decide)
      · by_cases ha : strLower r = "assistant"
        · have hrr : resolveRole (topRoleData r) = .str r := by
            rw [resolveRole_topRoleData, mapTopRole_eval r hne]
            simp [ha]
          exact ha ▸ normalize_role_eq (topRoleData r) file r hrr hne (Or.inr ha)
        · have hrr : resolveRole (topRoleData r) = .str "assistant" := by
            rw [resolveRole_topRoleData, mapTopRole_eval r hne]
            rcases h with h | h
            · simp [hu, ha, h]
            · simp [hu, ha, h]
          exact normalize_role_eq (topRoleData r) file "assistant" hrr (by decide)
            (Or.inr (by decide))
  · intro h hna hnm
    by_cases hne : r = ""
    · subst hne
      exact absurd h (by decide)
    · by_cases hu : strLower r = "user"
      · have hrr : resolveRole (topRoleData r) = .str r := by
          rw [resolveRole_topRoleData, mapTopRole_eval r hne]
          simp [hu]
        exact hu ▸ normalize_role_eq (topRoleData r) file r hrr hne (Or.inl hu)
      · by_cases ha : strLower r = "assistant"
        · rw [ha] at h
          exact absurd h (by decide)
        · have hrr : resolveRole (topRoleData r) = .str "user" := by
            rw [resolveRole_topRoleData, mapTopRole_eval r hne]
            simp [hu, ha, hna, hnm, h]
          exact normalize_role_eq (topRoleData r) file "user" hrr (by decide)
            (Or.inl (by decide))
  · intro h1 h2
    by_cases hs : s = ""
    · subst hs; rfl
    · have hrr := resolveRole_msgRoleData s hs
      exact normalize_drop _ file (by rw [hrr]; simpa [pyStr] using h1)
        (by rw [hrr]; simpa [pyStr] using h2)

/-- Witness for C4 amended at `Assistant_Response`, `User_Message`, and a
nested-tier `system` role. -/
theorem c4_amended_witness :
    (normalize_message (topRoleData "Assistant_Response") "f.jsonl").map Message.role
        = some "assistant"
      ∧ (normalize_message (topRoleData "User_Message") "f.jsonl").map Message.role
          = some "user"
      ∧ normalize_message (msgRoleData "system") "f.jsonl" = none :=
  ⟨(c4_amended "Assistant_Response" "x" "f.jsonl").1 (Or.inl (by decide)),
   (c4_amended "User_Message" "x" "f.jsonl").2.1 (by decide) (by decide) (by decide),
   (c4_amended "x" "system" "f.jsonl").2.2 (by decide) (by decide)⟩

/-- Claim C6: normalization is total — for any record (in particular any
string-keyed map, whatever the shapes of its nested `message`/`payload`/
`delta` values) it returns either a canonical message or the not-a-message
result — and whenever the resolved role does not lower to exactly `user` or
`assistant`, the result is the not-a-message result `none`, not an error. -/
theorem c6_normalize_total_and_drops (data : JValue) (file : String) :
    ((normalize_message data file).isSome = true ∨ normalize_message data file = none)
      ∧ (strLower (pyStr (resolveRole data)) ≠ "user" →
          strLower (pyStr (resolveRole data)) ≠ "assistant" →
          normalize_message data file = none) := by
  constructor
  · cases h : normalize_message data file
    · exact Or.inr rfl
    · exact Or.inl rfl
  · intro h1 h2
    exact normalize_drop data file h1 h2

/-- Witness for C6 at a `type: "system"` record. -/
theorem c6_witness :
    normalize_message (.obj [("type", .str "system")]) "f.jsonl" = none :=
  (c6_normalize_total_and_drops (.obj [("type", .str "system")]) "f.jsonl").2
    (by decide) (by decide)

/-- Claim C10: whenever the normalizer yields a canonical message, its role
is exactly `user` or `assistant` (lower case), and its content is never the
null sentinel — it is the resolved content value, or the empty string when
that resolution came up null. -/
theorem c10_invariants (data : JValue) (file : String) (m : Message)
    (hm : normalize_message data file = some m) :
    (m.role = "user" ∨ m.role = "assistant")
      ∧ m.content ≠ JValue.null
      ∧ (m.content = resolveContent data ∨ m.content = JValue.str "") := by
  simp only [normalize_message] at hm
  by_cases hg : (truthy (resolveRole data) &&
      (strLower (pyStr (resolveRole data)) == "user" ||
        strLower (pyStr (resolveRole data)) == "assistant")) = true
  · rw [if_pos hg] at hm
    cases hm
    rw [Bool.and_eq_true] at hg
    rcases hg with ⟨-, hor⟩
    rw [Bool.or_eq_true] at hor
    refine ⟨?_, ?_, ?_⟩
    · rcases hor with h | h
      · exact Or.inl (by simpa using h)
      · exact Or.inr (by simpa using h)
    · show (if isNullJ (resolveContent data) then JValue.str "" else resolveContent data)
          ≠ JValue.null
      by_cases hc : isNullJ (resolveContent data) = true
      · rw [if_pos hc]
        intro h
        cases h
      · rw [if_neg hc]
        intro h
        rw [h] at hc
        exact hc rfl
    · show (if isNullJ (resolveContent data) then JValue.str "" else resolveContent data)
            = resolveContent data
          ∨ (if isNullJ (resolveContent data) then JValue.str "" else resolveContent data)
            = JValue.str ""
      by_cases hc : isNullJ (resolveContent data) = true
      · rw [if_pos hc]
        exact Or.inr rfl
      · rw [if_neg hc]
        exact Or.inl rfl
  · rw [if_neg hg] at hm
    cases hm

/-- The record for the C10 witness. -/
def c10WData : JValue := .obj [("role", .str "user"), ("content", .str "hi")]

/-- The canonical message the C10 witness record normalizes to. -/
def c10WMsg : Message := ⟨.null, "user", .str "hi", "f.jsonl", .str "", .str "", .str ""⟩

/-- Witness for C10 at a concrete record. -/
theorem c10_invariants_witness :
    (c10WMsg.role = "user" ∨ c10WMsg.role = "assistant")
      ∧ c10WMsg.content ≠ JValue.null
      ∧ (c10WMsg.content = resolveContent c10WData ∨ c10WMsg.content = JValue.str "") :=
  c10_invariants c10WData "f.jsonl" c10WMsg (by rfl)

/-- Claim C5 counterexample: `"Unknown time"` itself is a present, nonempty
timestamp that fails ISO parsing; the function then returns the raw string,
which equals the sentinel — so the output equals `"Unknown time"` at a
present (non-absent) timestamp, refuting "exactly when absent". -/
theorem c5_counterexample :
    format_time (some "Unknown time") = "Unknown time"
      ∧ (some "Unknown time" : Option String) ≠ none
      ∧ ("Unknown time" : String) ≠ "" :=
  ⟨rfl, by simp, by decide⟩

/-- Claim C5 amended: `"Unknown time"` is returned when the timestamp is
absent or empty (falsy); a nonempty timestamp that fails ISO-8601 parsing
(after normalizing `Z` to `+00:00`) is returned raw — a value that may
itself coincide with `"Unknown time"` — and a parseable one renders as
`YYYY-MM-DD HH:MM:SS`. -/
theorem c5_amended :
    (∀ ts : Option String, ts = none ∨ ts = some "" → format_time ts = "Unknown time")
      ∧ (∀ s : String, s ≠ "" → parseIso (replaceZ s) = none → format_time (some s) = s)
      ∧ (∀ (s : String) (dt : PyDateTime), s ≠ "" → parseIso (replaceZ s) = some dt →
          format_time (some s) = fmtDateTime dt) := by
  refine ⟨?_, ?_, ?_⟩
  · rintro ts (rfl | rfl)
    · rfl
    · rfl
  · intro s hs hp
    simp [format_time, hs, hp]
  · intro s dt hs hp
    simp [format_time, hs, hp]

/-- Witness for C5 amended: the three behaviours at concrete inputs. -/
theorem c5_amended_witness :
    format_time none = "Unknown time"
      ∧ format_time (some "not-a-date") = "not-a-date"
      ∧ format_time (some "2024-01-01T00:00:00Z") = fmtDateTime ⟨2024, 1, 1, 0, 0, 0⟩ :=
  ⟨c5_amended.1 none (Or.inl rfl),
   c5_amended.2.1 "not-a-date" (by decide) (by rfl),
   c5_amended.2.2 "2024-01-01T00:00:00Z" ⟨2024, 1, 1, 0, 0, 0⟩ (by decide) (by rfl)⟩
